import Mathlib

/-!
Verification of the request dispatch and measurement engine of api-test-rs.

The definitions below are a shallow embedding of the Rust sources:
  * `src/lib.rs`   — data model (`PairUi`, `HttpRequestConfig`, `RequestStats`, …),
                     `RequestStats::percentile`, `RequestStats::add_response_time`,
                     `HttpTest::send_before_init`, `HttpRequestConfig::request_build`;
  * `src/util.rs`  — `parse_var_str`, `tuple_vec`, `real_tuple_vec`, `get_filename`,
                     `read_binary`, `handle_multipart`, `http_send`;
  * `src/main.rs`  — `ApiTestApp::send_http_batch`, `ApiTestApp::handle_http_response`,
                     and the Cancel button handler of `ui_right_panel`.

Machine integers (`usize`, `u64`, `u128`) are modelled as `Nat`; where Rust
subtraction on `usize` can underflow we model the underflow explicitly (either
as an `Option` result standing for the debug-build panic, or as the release
wrap modulo `2^64`).  Rust `f64` arithmetic in `percentile` is modelled exactly
over `ℚ`.  Fallible operations return `Except String`.  File and network reads
are abstracted by an explicit function `fs : String → Option (List Nat)`.
-/

namespace ApiTest

/-- Mirrors `PairUi` in src/lib.rs: `{key: String, value: String, disable: bool}`. -/
structure PairUi where
  key : String
  value : String
  disable : Bool
deriving Repr, DecidableEq

/-- `PairUi::bad` in src/lib.rs: empty key or disabled. -/
def PairUi.bad (p : PairUi) : Bool := p.key.isEmpty || p.disable

/-- `PairUi::tuple` in src/lib.rs: `None` for bad pairs. -/
def PairUi.tuple (p : PairUi) : Option (String × String) :=
  if p.bad then none else some (p.key, p.value)

/-! ### The variable resolver `parse_var_str` (src/util.rs, lines 411–431)

The Rust code replaces every non-overlapping leftmost match of the regex
`\{\{([^{}]*)\}\}` in the input.  For each match it trims the capture, looks up
the first variable whose key equals the trimmed name (`vars.iter().find(|e|
e.key.eq(var_name))` — note: with no check of the `disable` flag), and replaces
the whole match with the variable's value, or leaves the match verbatim when no
key matches.  `takeInner` consumes the greedy `[^{}]*` run and the closing
braces; `rvAux` is the scanner (fuelled by the input length so that it is
structurally recursive; the fuel is never exhausted on inputs of that length,
since each step consumes at least one character). -/

/-- Greedy `[^{}]*\}\}` matcher: returns the captured run and the rest after `}}`. -/
def takeInner : List Char → Option (List Char × List Char)
  | [] => none
  | c :: rest =>
    if c = '}' then
      match rest with
      | c2 :: rest' => if c2 = '}' then some ([], rest') else none
      | [] => none
    else if c = '{' then none
    else (takeInner rest).map (fun p => (c :: p.1, p.2))

/-- Rust `str::trim` on a character list (ASCII whitespace). -/
def trimChars (cs : List Char) : List Char :=
  ((cs.dropWhile Char.isWhitespace).reverse.dropWhile Char.isWhitespace).reverse

/-- The substitution for one matched token: trim the capture, look up the
first variable whose key equals the trimmed name (the `disable` flag is not
consulted), else reproduce the match verbatim. -/
def substToken (vars : List PairUi) (inner : List Char) : List Char :=
  match vars.find? (fun e => e.key.toList == trimChars inner) with
  | some v => v.value.toList
  | none => '{' :: '{' :: (inner ++ ['}', '}'])

/-- The regex `replace_all` scanner of `parse_var_str`. -/
def rvAux (vars : List PairUi) : Nat → List Char → List Char
  | 0, cs => cs
  | _ + 1, [] => []
  | fuel + 1, c1 :: rest1 =>
    if c1 = '{' then
      match rest1 with
      | c2 :: rest2 =>
        if c2 = '{' then
          match takeInner rest2 with
          | some (inner, rest') => substToken vars inner ++ rvAux vars fuel rest'
          | none => '{' :: rvAux vars fuel ('{' :: rest2)
        else c1 :: rvAux vars fuel rest1
      | [] => c1 :: rvAux vars fuel rest1
    else c1 :: rvAux vars fuel rest1

/-- `parse_var_str` from src/util.rs. -/
def parse_var_str (oragin_str : String) (vars : List PairUi) : String :=
  String.mk (rvAux vars oragin_str.toList.length oragin_str.toList)

example : parse_var_str "{{k}}" [⟨"k", "v", false⟩] = "v" := by decide
example : parse_var_str "{{ k }}" [⟨"k", "v", false⟩] = "v" := by decide
example : parse_var_str "{{k}}" [⟨"k", "v", true⟩] = "v" := by decide
example : parse_var_str "{{x}}" [⟨"k", "v", false⟩] = "{{x}}" := by decide
example : parse_var_str "a{{k}}b" [⟨"k", "v", false⟩] = "avb" := by decide
example : parse_var_str "{{{k}}}" [⟨"k", "v", false⟩] = "{v}" := by decide

/-! ### Data model enums and `HttpRequestConfig` (src/lib.rs)

The copy of `src/lib.rs` in this repository snapshot lacks the script fields
(`script_enabled`, `pre_request_script`, `post_response_script` on
`HttpRequestConfig`, `modified_vars` on `HttpResponse`), but `src/util.rs` and
`src/main.rs` — both part of this repository — read and write them, so they are
included here exactly as those two files use them. -/

inductive Method
  | OPTIONS | GET | POST | PUT | DELETE | HEAD | TRACE | CONNECT | PATCH | WS
deriving Repr, DecidableEq

inductive RequestBodyTab
  | Raw | Form | FormData
deriving Repr, DecidableEq

inductive RequestBodyRawType
  | Json | Text | Form | XML | BinaryFile
deriving Repr, DecidableEq

/-- Mirrors `HttpRequestConfig` in src/lib.rs (plus the script fields used by
src/util.rs and src/main.rs, see above). -/
structure HttpRequestConfig where
  method : Method
  url : String
  body_tab_ui : RequestBodyTab
  query : List PairUi
  header : List PairUi
  body_form : List PairUi
  body_form_data : List PairUi
  body_raw : String
  body_raw_type : RequestBodyRawType
  script_enabled : Bool := false
  pre_request_script : String := ""
  post_response_script : String := ""
deriving Repr, DecidableEq

/-- `tuple_vec` from src/util.rs: keep the non-bad pairs. -/
def tuple_vec (vec : List PairUi) : List (String × String) :=
  vec.filterMap PairUi.tuple

/-- `real_tuple_fn` from src/util.rs. -/
def real_tuple_fn (kv : String × String) (vars : List PairUi) : String × String :=
  (parse_var_str kv.1 vars, parse_var_str kv.2 vars)

/-- `real_tuple_vec` from src/util.rs. -/
def real_tuple_vec (vec : List PairUi) (vars : List PairUi) : List (String × String) :=
  (tuple_vec vec).map (real_tuple_fn · vars)

/-! ### Constants from src/lib.rs -/

def CONTENT_TYPE : String := "Content-Type"
def TEXT_PLAIN : String := "text/plain"
def TEXT_XML : String := "text/xml"
def APPLICATION_JSON : String := "application/json"
def APPLICATION_FORM : String := "application/x-www-form-urlencoded"
def APPLICATION_STREAM : String := "application/octet-stream"

/-! ### File access and multipart handling (src/util.rs)

`read_binary` reads a local file or fetches an `http…` URL; both are abstracted
by the function `fs` (`none` = file does not exist / fetch failed). -/

instance {ε α : Type _} [DecidableEq ε] [DecidableEq α] : DecidableEq (Except ε α) := fun
  | .error e, .error f =>
    if h : e = f then isTrue (congrArg _ h)
    else isFalse (fun hh => h (Except.error.inj hh))
  | .error _, .ok _ => isFalse Except.noConfusion
  | .ok _, .error _ => isFalse Except.noConfusion
  | .ok a, .ok b =>
    if h : a = b then isTrue (congrArg _ h)
    else isFalse (fun hh => h (Except.ok.inj hh))

/-- `read_binary` from src/util.rs: empty path is an error, otherwise the
(abstracted) local read or HTTP fetch. -/
def read_binary (fs : String → Option (List Nat)) (path : String) :
    Except String (List Nat) :=
  if path.isEmpty then .error "path must not be empty"
  else
    match fs path with
    | some dat => .ok dat
    | none => .error "file not exists"

/-- Splitting a character list at every occurrence of `c` (the semantics of
Rust `str::split(c)` and of `String.split`, reformulated so that it reduces in
the kernel). -/
def splitOnChar (c : Char) : List Char → List (List Char)
  | [] => [[]]
  | x :: rest =>
    match splitOnChar c rest with
    | [] => [[x]]
    | h :: t => if x = c then [] :: h :: t else (x :: h) :: t

/-- Rust `str::trim` (kernel-reducible form). -/
def trimStr (s : String) : String := String.mk (trimChars s.toList)

/-- Rust `str::to_lowercase` restricted to its effect on ASCII letters
(kernel-reducible form of `String.toLower`). -/
def toLowerStr (s : String) : String := String.mk (s.toList.map Char.toLower)

/-- Rust `Path::file_name` for Unix-style paths without `.`/`..` semantics
beyond the source's use: the final non-empty `/`-separated component
(`None` for an empty path, a root path, or a path ending in `..`). -/
def fileNameOf (path : String) : Option String :=
  match (((splitOnChar '/' path.toList).map String.mk).filter
      (fun s => !(s == "" || s == "."))).getLast? with
  | some last => if last = ".." then none else some last
  | none => none

/-- Rust `Path::file_stem` applied to a file name: the portion before the last
`.`, except that a name whose only `.` is its first character is its own stem. -/
def stemOfName (n : String) : String :=
  let cs := n.toList
  if (cs.drop 1).contains '.' then
    String.mk (cs.take (cs.length - 1 - ((cs.reverse.takeWhile (· ≠ '.')).length)))
  else n

/-- `get_filename` from src/util.rs: `Path::new(path).file_stem()`, stringified,
as a `Result`. -/
def get_filename (path : String) : Except String String :=
  match fileNameOf path with
  | some n => .ok (stemOfName n)
  | none => .error "failed to get file name"

example : get_filename "/tmp/a.jpg" = .ok "a" := by decide
example : get_filename "a.tar.gz" = .ok "a.tar" := by decide
example : get_filename "/tmp/noext" = .ok "noext" := by decide

/-- A part of a multipart form (`reqwest::multipart::Part` as used by
`handle_multipart`): either a text part, or a byte part carrying a file name. -/
inductive Part
  | text (name value : String)
  | file (name filename : String) (bytes : List Nat)
deriving Repr, DecidableEq

/-- The file-path list extracted from a form-data value containing `@`
(src/util.rs, `handle_multipart`): split on `@`, drop empty segments, trim. -/
def filePaths (v : String) : List String :=
  (((splitOnChar '@' v.toList).map String.mk).filter (fun e => !e.isEmpty)).map trimStr

/-- One file attachment of `handle_multipart`: read the bytes, then name the
part by the pair's key with the file's stem as file name. -/
def readFilePart (fs : String → Option (List Nat)) (k p : String) :
    Except String Part := do
  let file_body ← read_binary fs p
  let n ← get_filename p
  pure (Part.file k n file_body)

/-- `handle_multipart` from src/util.rs: a value containing `@` yields one file
part per extracted path; any other value yields a text part. -/
def handle_multipart (fs : String → Option (List Nat)) :
    List (String × String) → Except String (List Part)
  | [] => .ok []
  | (k, v) :: rest => do
    let head ← if !v.isEmpty && v.toList.contains '@'
      then (filePaths v).mapM (readFilePart fs k)
      else pure [Part.text k v]
    let tail ← handle_multipart fs rest
    pure (head ++ tail)

/-! ### The request compiler `HttpRequestConfig::request_build` (src/lib.rs 223–327)

The reqwest `RequestBuilder` is modelled as explicit data; note that
`RequestBuilder::header` *appends* (reqwest uses `HeaderMap::append`), so the
header list below records every `.header(..)` call in order. -/

inductive RequestBody
  | empty
  | raw (s : String)
  | rawBytes (b : List Nat)
  | form (kv : List (String × String))
  | multipart (parts : List Part)
deriving Repr, DecidableEq

structure BuiltRequest where
  method : Method
  url : String
  query : List (String × String)
  headers : List (String × String)
  body : RequestBody
deriving Repr, DecidableEq

/-- The `has_content_type` scan of `request_build` (src/lib.rs 255–261):
`k.to_lowercase() == CONTENT_TYPE` — the lowercased key is compared against the
mixed-case constant `"Content-Type"`. -/
def has_content_type (request_header : List (String × String)) : Bool :=
  request_header.any (fun kv => toLowerStr kv.1 == CONTENT_TYPE)

/-- The default MIME type per raw-body kind (src/lib.rs 268–311). -/
def defaultContentType : RequestBodyRawType → String
  | .Text => TEXT_PLAIN
  | .Json => APPLICATION_JSON
  | .Form => APPLICATION_FORM
  | .XML => TEXT_XML
  | .BinaryFile => APPLICATION_STREAM

/-- `HttpRequestConfig::request_build` from src/lib.rs. -/
def request_build (fs : String → Option (List Nat)) (cfg : HttpRequestConfig)
    (vars : List PairUi) : Except String BuiltRequest :=
  let real_url := parse_var_str cfg.url vars
  let request_query := real_tuple_vec cfg.query vars
  let request_header := real_tuple_vec cfg.header vars
  let request_body_form := real_tuple_vec cfg.body_form vars
  let request_body_form_data := real_tuple_vec cfg.body_form_data vars
  let body_raw := cfg.body_raw
  let hct := has_content_type request_header
  let base : BuiltRequest :=
    { method := cfg.method, url := real_url, query := request_query,
      headers := request_header, body := .empty }
  match cfg.body_tab_ui with
  | .Raw =>
    if body_raw.isEmpty then .ok base
    else
      match cfg.body_raw_type with
      | .Text => .ok { base with
          headers := base.headers ++ (if hct then [] else [(CONTENT_TYPE, TEXT_PLAIN)]),
          body := .raw body_raw }
      | .Json => .ok { base with
          headers := base.headers ++ (if hct then [] else [(CONTENT_TYPE, APPLICATION_JSON)]),
          body := .raw body_raw }
      | .Form => .ok { base with
          headers := base.headers ++ (if hct then [] else [(CONTENT_TYPE, APPLICATION_FORM)]),
          body := .raw body_raw }
      | .XML => .ok { base with
          headers := base.headers ++ (if hct then [] else [(CONTENT_TYPE, TEXT_XML)]),
          body := .raw body_raw }
      | .BinaryFile =>
        (read_binary fs body_raw).map fun dat =>
          { base with
            headers := base.headers ++ (if hct then [] else [(CONTENT_TYPE, APPLICATION_STREAM)]),
            body := .rawBytes dat }
  | .Form => .ok { base with
      headers := base.headers ++ [(CONTENT_TYPE, APPLICATION_FORM)],
      body := .form request_body_form }
  | .FormData =>
    (handle_multipart fs request_body_form_data).map fun f =>
      { base with body := .multipart f }

/-! ### Statistics (`RequestStats`, src/lib.rs 21–173 and 358–377)

`response_times` holds `u128` latencies (modelled as `Nat`); `Instant`
timestamps are modelled as opaque `Nat` clock readings supplied by the caller. -/

structure RequestStats where
  pending : Nat
  sending : Nat
  success : Nat
  failed : Nat
  response_times : List Nat
  total_start_time : Option Nat
  total_end_time : Option Nat
  total_upload_bytes : Nat
  total_download_bytes : Nat
  max_response_times : Nat
deriving Repr, DecidableEq

/-- `usize::MAX`: the value a wrapping `0usize - 1` produces in release builds. -/
def USIZE_MAX : Nat := 2 ^ 64 - 1

/-- `⌈p / 100 * n⌉` computed on the numerator and denominator of `p`
(kernel-reducible; proved equal to `Int.ceil (p / 100 * n)` in
`ceilPercentIndex_eq` below). -/
def ceilPercentIndex (p : ℚ) (n : Nat) : Int :=
  let b : Int := (p.den : Int) * 100
  (p.num * (n : Int) + b - 1).fdiv b

/-- `RequestStats::percentile` (src/lib.rs 66–74).  The `f64` expression
`((p / 100.0) * sorted.len() as f64).ceil() as usize` is modelled exactly over
`ℚ` (the saturating float→usize cast of a non-negative value is `Int.toNat`),
and the unchecked `- 1` on `usize` is modelled with release-build wrapping:
when the cast yields `0`, subtracting one wraps to `usize::MAX` (in a debug
build this subtraction panics instead). -/
def percentile (st : RequestStats) (p : ℚ) : Option Nat :=
  if st.response_times = [] then none
  else
    let sorted := st.response_times.insertionSort (· ≤ ·)
    let n := sorted.length
    let ceiled : Nat := (ceilPercentIndex p n).toNat
    let index : Nat := if ceiled = 0 then USIZE_MAX else ceiled - 1
    sorted.get? (min index (n - 1))

/-- `RequestStats::add_response_time` (src/lib.rs 76–83); `rand` stands for the
`rand::random::<usize>()` draw. -/
def add_response_time (rand : Nat) (st : RequestStats) (time : Nat) : RequestStats :=
  if st.response_times.length < st.max_response_times then
    { st with response_times := st.response_times ++ [time] }
  else if 0 < st.max_response_times then
    { st with response_times := st.response_times.set (rand % st.max_response_times) time }
  else st

/-- `HttpTest::send_before_init` (src/lib.rs 358–377), restricted to the stats
it creates; `send_count` is the parsed `send_count_ui` and `start` the
`Instant::now()` reading. -/
def send_before_init (send_count : Nat) (start : Nat) : RequestStats :=
  let max_samples := min 100000 send_count
  { pending := send_count
    sending := 0
    success := 0
    failed := 0
    response_times := []
    total_start_time := some start
    total_end_time := none
    total_upload_bytes := 0
    total_download_bytes := 0
    max_response_times := max_samples }

/-! ### Outcome handling (`ApiTestApp::handle_http_response`, src/main.rs 1532–1582)
and the Cancel button (src/main.rs 839–844). -/

/-- An element of the result channel: `Result<HttpResponse>`.  Only the fields
`handle_http_response` reads are modelled. -/
inductive HttpOutcome
  | ok (duration request_size response_size : Nat) (status : Nat)
      (modified_vars : Option (List PairUi))
  | err
deriving Repr, DecidableEq

/-- `reqwest::StatusCode::is_success`: 2xx. -/
def statusIsSuccess (status : Nat) : Bool := 200 ≤ status && status < 300

/-- The merge of one script-modified variable into the project table
(src/main.rs 1554–1562): update the first pair with the same key, else push. -/
def mergeRespVar : List PairUi → PairUi → List PairUi
  | [], var => [var]
  | v :: rest, var =>
    if v.key == var.key then { v with value := var.value } :: rest
    else v :: mergeRespVar rest var

/-- `ApiTestApp::handle_http_response` (src/main.rs 1545–1581), restricted to
the project-variable table and the stats of the selected test.  The unguarded
`sending -= 1` is a `usize` subtraction: `none` models its underflow when
`sending == 0` (a panic in debug builds).  `now` is the `Instant::now()`
reading taken when the run finishes. -/
def handle_http_response (rand now : Nat) (vars : List PairUi)
    (st : RequestStats) (o : HttpOutcome) : Option (List PairUi × RequestStats) :=
  match o with
  | .ok duration request_size response_size status modified_vars =>
    let st1 := add_response_time rand st duration
    let st2 := { st1 with
      total_upload_bytes := st1.total_upload_bytes + request_size,
      total_download_bytes := st1.total_download_bytes + response_size }
    let is_success := statusIsSuccess status
    let vars' := match modified_vars with
      | some mv => mv.foldl mergeRespVar vars
      | none => vars
    if st2.sending = 0 then none
    else
      let st3 := { st2 with
        sending := st2.sending - 1,
        success := st2.success + (if is_success then 1 else 0),
        failed := st2.failed + (if is_success then 0 else 1) }
      let st4 := if st3.sending = 0 then { st3 with total_end_time := some now } else st3
      some (vars', st4)
  | .err =>
    if st.sending = 0 then none
    else
      let st3 := { st with sending := st.sending - 1, failed := st.failed + 1 }
      let st4 := if st3.sending = 0 then { st3 with total_end_time := some now } else st3
      some (vars, st4)

/-- The Cancel button handler (src/main.rs 839–844): set `sending` to `0` and
record the end time; nothing else is signalled to the dispatch task. -/
def cancel_run (now : Nat) (st : RequestStats) : RequestStats :=
  { st with sending := 0, total_end_time := some now }

/-! ### The dispatch loop `ApiTestApp::send_http_batch` (src/main.rs 1458–1486)

```text
while sent < send_count || !futures.is_empty() {
    while sent < send_count && futures.len() < max_concurrent { spawn; sent += 1 }
    futures.next().await;   // completes one in-flight future; its body has
                            // already sent its Result over the channel
}
```

`LoopState` abstracts the loop: `sent` spawned futures, `inflight` the size of
`futures`, `delivered` the number of results sent over `tx` (each future sends
exactly one, success or error), `peak` the largest in-flight count observed.
The inner `while` adds `min (send_count - sent) (max_concurrent - inflight)`
futures; the outer iteration then completes one.  The loop is driven by fuel
for structural recursion; `2*send_count + 1` fuel is proven sufficient. -/

structure LoopState where
  sent : Nat
  inflight : Nat
  delivered : Nat
  peak : Nat
deriving Repr, DecidableEq

/-- The inner spawn loop of `send_http_batch`. -/
def fillLoop (send_count max_concurrent : Nat) (s : LoopState) : LoopState :=
  let k := min (send_count - s.sent) (max_concurrent - s.inflight)
  { s with sent := s.sent + k, inflight := s.inflight + k,
           peak := max s.peak (s.inflight + k) }

/-- `futures.next().await` returning one completed future, whose body has sent
its result over the channel. -/
def completeOne (s : LoopState) : LoopState :=
  { s with inflight := s.inflight - 1, delivered := s.delivered + 1 }

/-- The outer loop of `send_http_batch`. -/
def batchLoop (send_count max_concurrent : Nat) : Nat → LoopState → LoopState
  | 0, s => s
  | fuel + 1, s =>
    if s.sent < send_count ∨ 0 < s.inflight then
      let s' := fillLoop send_count max_concurrent s
      if 0 < s'.inflight then
        batchLoop send_count max_concurrent fuel (completeOne s')
      else s'
    else s

def initLoop : LoopState := ⟨0, 0, 0, 0⟩

/-! ### Interleaving of the dispatch loop with the UI Cancel button (C2)

The Cancel handler runs on the UI thread while `send_http_batch` runs on the
tokio runtime; the two share only the stats object (`sending`) — which the
dispatch loop never reads.  `SysState`/`sysStep` is the interleaved small-step
system: `fill`/`complete` are the loop's transitions (a `complete` can only
happen at an await point, i.e. once the inner spawn loop has stopped filling),
`cancel` is the button click (enabled while `is_running`, i.e. `0 < sending`;
it records a snapshot of `(sent, inflight)` at cancel time for specification
purposes only). -/

structure SysState where
  sent : Nat
  inflight : Nat
  delivered : Nat
  sending : Nat
  cancelSnap : Option (Nat × Nat)
deriving Repr, DecidableEq

inductive BatchEv
  | fill | complete | cancel
deriving Repr, DecidableEq

def sysStep (send_count max_concurrent : Nat) (s : SysState) :
    BatchEv → Option SysState
  | .fill =>
    if s.sent < send_count ∧ s.inflight < max_concurrent then
      some { s with sent := s.sent + 1, inflight := s.inflight + 1 }
    else none
  | .complete =>
    if 0 < s.inflight ∧ (s.inflight = max_concurrent ∨ s.sent = send_count) then
      some { s with inflight := s.inflight - 1, delivered := s.delivered + 1 }
    else none
  | .cancel =>
    if 0 < s.sending then
      some { s with sending := 0, cancelSnap := some (s.sent, s.inflight) }
    else none

/-- Run a sequence of events from a state; `none` if some event is not enabled. -/
def sysRun (send_count max_concurrent : Nat) (evs : List BatchEv)
    (s : SysState) : Option SysState :=
  evs.foldlM (sysStep send_count max_concurrent) s

/-- The state right after the Send click (src/main.rs 819–835):
`stats.sending = send_count`, nothing spawned yet. -/
def sysInit (send_count : Nat) : SysState :=
  ⟨0, 0, 0, send_count, none⟩

/-! ### The script hook pipeline (`util::http_send`, src/util.rs 212–409, and
`ScriptEngine::execute_pre_request` / `execute_post_response`,
src/script_engine.rs 97–170)

The rhai engine itself is external; a script execution is abstracted as its
outcome: `Except.error e` for `engine.execute_*` returning `Err(e)` (context
extraction failure), or a `ScriptResult` whose `success` flag is false with an
optional error message when `eval_with_scope` failed.  The `HashMap` contexts
are modelled as association lists (iteration order is irrelevant to the claims
proved here). -/

structure PreRequestContext where
  url : String
  method : String
  headers : List (String × String)
  params : List (String × String)
  body : String
  vars : List (String × String)
deriving Repr, DecidableEq

structure ScriptResult (ctx : Type) where
  success : Bool
  error : Option String
  context : ctx
deriving Repr, DecidableEq

/-- A script execution failed: the engine returned `Err`, or a result whose
`success` flag is false (`eval_with_scope` error). -/
def scriptFailed {ctx : Type} : Except String (ScriptResult ctx) → Prop
  | .error _ => True
  | .ok r => r.success = false

/-- The update-or-push merge used by `http_send` for headers, params and
variables (src/util.rs 256–292, 365–375): set the value of the first `PairUi`
with the given key, else push a new enabled pair. -/
def mergeCtxPair : List PairUi → String × String → List PairUi
  | [], kv => [⟨kv.1, kv.2, false⟩]
  | v :: rest, kv =>
    if v.key == kv.1 then { v with value := kv.2 } :: rest
    else v :: mergeCtxPair rest kv

/-- The pre-request script block of `http_send` (src/util.rs 227–302): returns
the (possibly modified) request config, the variable table, and the diagnostics
printed with `eprintln!`. -/
def apply_pre_script (cfg : HttpRequestConfig) (vars : List PairUi)
    (outcome : Except String (ScriptResult PreRequestContext)) :
    HttpRequestConfig × List PairUi × List String :=
  if cfg.script_enabled && !(trimStr cfg.pre_request_script).isEmpty then
    match outcome with
    | .ok result =>
      if result.success then
        let ctx := result.context
        ( { cfg with
            url := ctx.url
            body_raw := ctx.body
            header := ctx.headers.foldl mergeCtxPair cfg.header
            query := ctx.params.foldl mergeCtxPair cfg.query },
          ctx.vars.foldl mergeCtxPair vars, [] )
      else
        (cfg, vars,
          match result.error with
          | some err => ["Pre-request script error: " ++ err]
          | none => [])
    | .error e => (cfg, vars, ["Pre-request script execution error: " ++ e])
  else (cfg, vars, [])

/-- The post-response script block of `http_send` (src/util.rs 327–385): only
the variable table can change; same failure handling. -/
def apply_post_script (vars : List PairUi)
    (outcome : Except String (ScriptResult (List (String × String)))) :
    List PairUi × List String :=
  match outcome with
  | .ok result =>
    if result.success then (result.context.foldl mergeCtxPair vars, [])
    else
      (vars,
        match result.error with
        | some err => ["Post-response script error: " ++ err]
        | none => [])
  | .error e => (vars, ["Post-response script execution error: " ++ e])

/-- The response data obtained from the transport (status etc.); abstracted. -/
structure RespData where
  status : Nat
  headers : List (String × String)
  body : List Nat
deriving Repr, DecidableEq

/-- The `HttpResponse` value `http_send` returns (src/util.rs 396–408),
restricted to the fields the claims are about. -/
structure HttpResponseModel where
  status : Nat
  modified_vars : Option (List PairUi)
deriving Repr, DecidableEq

/-- `http_send` after the pre-request script block: build the request from
`cfg'`/`vars1`, send it, then run the post-response block.  `cfg` is the
*original* config — the enable checks of the post block and of the
`modified_vars` computation read `req_cfg`, not the script-modified copy. -/
def http_send_after_pre (fs : String → Option (List Nat))
    (cfg cfg' : HttpRequestConfig) (vars1 : List PairUi)
    (transport : BuiltRequest → Except String RespData)
    (postOutcome : Except String (ScriptResult (List (String × String)))) :
    Except String HttpResponseModel := do
  let req ← request_build fs cfg' vars1
  let resp ← transport req
  let (vars2, _postDiags) :=
    if cfg.script_enabled && !(trimStr cfg.post_response_script).isEmpty then
      apply_post_script vars1 postOutcome
    else (vars1, [])
  let modified_vars :=
    if cfg.script_enabled &&
        (!(trimStr cfg.pre_request_script).isEmpty ||
         !(trimStr cfg.post_response_script).isEmpty) then
      some vars2
    else none
  pure { status := resp.status, modified_vars := modified_vars }

/-- `util::http_send` (src/util.rs 212–409): pre-request script block, request
build, transport, post-response script block. -/
def http_send (fs : String → Option (List Nat)) (cfg : HttpRequestConfig)
    (vars : List PairUi)
    (preOutcome : Except String (ScriptResult PreRequestContext))
    (transport : BuiltRequest → Except String RespData)
    (postOutcome : Except String (ScriptResult (List (String × String)))) :
    Except String HttpResponseModel :=
  let pre := apply_pre_script cfg vars preOutcome
  http_send_after_pre fs cfg pre.1 pre.2.1 transport postOutcome

/-! ## Helper lemmas -/

theorem add_response_time_sending (rand : Nat) (st : RequestStats) (t : Nat) :
    (add_response_time rand st t).sending = st.sending := by
  unfold add_response_time
  split
  · rfl
  · split <;> rfl

theorem add_response_time_max (rand : Nat) (st : RequestStats) (t : Nat) :
    (add_response_time rand st t).max_response_times = st.max_response_times := by
  unfold add_response_time
  split
  · rfl
  · split <;> rfl

theorem add_response_time_success (rand : Nat) (st : RequestStats) (t : Nat) :
    (add_response_time rand st t).success = st.success := by
  unfold add_response_time
  split
  · rfl
  · split <;> rfl

theorem add_response_time_failed (rand : Nat) (st : RequestStats) (t : Nat) :
    (add_response_time rand st t).failed = st.failed := by
  unfold add_response_time
  split
  · rfl
  · split <;> rfl

theorem add_response_time_len_le (rand : Nat) (st : RequestStats) (t : Nat)
    (h : st.response_times.length ≤ st.max_response_times) :
    (add_response_time rand st t).response_times.length ≤ st.max_response_times := by
  unfold add_response_time
  split
  · simpa using ‹st.response_times.length < st.max_response_times›
  · split
    · simpa using h
    · simpa using h

/-! ## Claims -/

/-- Claim C8: the latency reservoir's capacity is fixed at run start to
`min(100_000, requested_count)` with an empty reservoir; every recorded sample
appends while the length is below capacity and, once full, replaces the slot
`rand % capacity` chosen by the random draw (capacity itself never changes);
consequently, after any sequence of recorded samples starting from
`send_before_init`, the reservoir length never exceeds the capacity. -/
theorem reservoir_bounded :
    (∀ n start, (send_before_init n start).max_response_times = min 100000 n
      ∧ (send_before_init n start).response_times = [])
    ∧ (∀ rand st t,
        (add_response_time rand st t).max_response_times = st.max_response_times
        ∧ (add_response_time rand st t).response_times =
          (if st.response_times.length < st.max_response_times then
            st.response_times ++ [t]
          else if 0 < st.max_response_times then
            st.response_times.set (rand % st.max_response_times) t
          else st.response_times))
    ∧ (∀ n start (samples : List (Nat × Nat)),
        ((samples.foldl (fun s rt => add_response_time rt.1 s rt.2)
            (send_before_init n start)).response_times.length ≤ min 100000 n)) := by
  refine ⟨fun n start => ⟨rfl, rfl⟩, fun rand st t => ⟨add_response_time_max .., ?_⟩, ?_⟩
  · unfold add_response_time
    split
    · rfl
    · split <;> rfl
  · intro n start samples
    suffices h : ∀ (samples : List (Nat × Nat)) (st : RequestStats),
        st.response_times.length ≤ st.max_response_times →
        ((samples.foldl (fun s rt => add_response_time rt.1 s rt.2) st).response_times.length
            ≤ (samples.foldl (fun s rt => add_response_time rt.1 s rt.2) st).max_response_times)
          ∧ (samples.foldl (fun s rt => add_response_time rt.1 s rt.2) st).max_response_times
            = st.max_response_times by
      have := h samples (send_before_init n start) (by simp [send_before_init])
      simpa [send_before_init] using this.1.trans_eq this.2
    intro samples
    induction samples with
    | nil => exact fun st h => ⟨h, rfl⟩
    | cons rt rest ih =>
      intro st h
      have hstep := add_response_time_len_le rt.1 st rt.2 h
      have hmax := add_response_time_max rt.1 st rt.2
      have := ih (add_response_time rt.1 st rt.2) (hmax ▸ hstep)
      exact ⟨this.1, this.2.trans hmax⟩

/-- Claim C9: for every outcome delivered to `handle_http_response` (with the
`sending` counter still positive): an `Ok(response)` increments `success`
exactly when the status is 2xx and `failed` otherwise, while a transport-error
outcome increments `failed` and leaves the latency reservoir and both byte
counters untouched. -/
theorem outcome_counters (rand now : Nat) (vars : List PairUi) (st : RequestStats)
    (d rq rs status : Nat) (mv : Option (List PairUi))
    (h : 0 < st.sending) :
    ((handle_http_response rand now vars st (.ok d rq rs status mv)).map
        (fun pr => (pr.2.success, pr.2.failed))
      = some (st.success + (if 200 ≤ status ∧ status < 300 then 1 else 0),
              st.failed + (if 200 ≤ status ∧ status < 300 then 0 else 1)))
    ∧ ((handle_http_response rand now vars st .err).map
        (fun pr => (pr.1, pr.2.success, pr.2.failed, pr.2.response_times,
                    pr.2.total_upload_bytes, pr.2.total_download_bytes))
      = some (vars, st.success, st.failed + 1, st.response_times,
              st.total_upload_bytes, st.total_download_bytes)) := by
  have hs : ¬ st.sending = 0 := by omega
  constructor
  · show (handle_http_response rand now vars st (.ok d rq rs status mv)).map _ = _
    unfold handle_http_response
    simp only [add_response_time_sending, hs, if_false, ite_false]
    have hsucc : (statusIsSuccess status = true) ↔ (200 ≤ status ∧ status < 300) := by
      simp [statusIsSuccess]
    by_cases h2 : 200 ≤ status ∧ status < 300
    · simp only [hsucc.mpr h2 , if_true, h2]
      split <;> (split <;> simp [add_response_time_success, add_response_time_failed])
    · have : statusIsSuccess status = false := by
        cases hb : statusIsSuccess status
        · rfl
        · exact absurd (hsucc.mp hb) h2
      simp only [this, h2, if_false]
      split <;> (split <;> simp [add_response_time_success, add_response_time_failed])
  · unfold handle_http_response
    simp only [hs, if_false, ite_false]
    split <;> simp

theorem char_toNat_ofNatAux (n : Nat) (h : n.isValidChar) :
    (Char.ofNatAux n h).toNat = n := rfl

theorem char_toLower_ne_C (c : Char) : c.toLower ≠ 'C' := by
  intro h
  unfold Char.toLower at h
  have h' : (if c.toNat ≥ 65 ∧ c.toNat ≤ 90 then Char.ofNat (c.toNat + 32) else c)
      = 'C' := h
  split at h'
  · rename_i hcond
    have hvalid : (c.toNat + 32).isValidChar := by
      unfold Nat.isValidChar
      left
      omega
    have hval : (Char.ofNat (c.toNat + 32)).toNat = 67 := by rw [h']; rfl
    unfold Char.ofNat at hval
    rw [dif_pos hvalid, char_toNat_ofNatAux] at hval
    omega
  · rename_i hcond
    rw [h'] at hcond
    exact hcond ⟨by decide, by decide⟩

theorem toLowerStr_ne_content_type (s : String) :
    (toLowerStr s == CONTENT_TYPE) = false := by
  rw [beq_eq_false_iff_ne]
  intro h
  have hd : (toLowerStr s).data = (CONTENT_TYPE : String).data := congrArg String.data h
  have hd' : s.data.map Char.toLower = 'C' :: ("ontent-Type" : String).data := hd
  cases hs : s.data with
  | nil => rw [hs] at hd'; simp at hd'
  | cons c t =>
    rw [hs] at hd'
    simp only [List.map_cons, List.cons.injEq] at hd'
    exact char_toLower_ne_C c hd'.1

/-- The concrete raw-JSON request of claim C1's failing input: the user already
supplies `Content-Type: text/csv`. -/
def contentTypeCfg : HttpRequestConfig :=
  { method := .POST, url := "http://example.com", body_tab_ui := .Raw,
    query := [], header := [⟨"Content-Type", "text/csv", false⟩],
    body_form := [], body_form_data := [], body_raw := "x",
    body_raw_type := .Json }

/-- Claim C1 (code bug): the user-set `Content-Type` header is never detected.
`request_build` compares `k.to_lowercase()` with the mixed-case constant
`"Content-Type"`, a comparison no key can satisfy, so `has_content_type` is
`false` for *every* header list; consequently a raw-body request that already
carries `Content-Type: text/csv` still gets the kind's default
`Content-Type: application/json` appended — violating the specified behaviour
of keeping only the user's value. -/
theorem user_content_type_never_detected :
    (∀ request_header : List (String × String), has_content_type request_header = false)
    ∧ ((request_build (fun _ => none) contentTypeCfg []).map BuiltRequest.headers
        = .ok [("Content-Type", "text/csv"), ("Content-Type", "application/json")]) := by
  constructor
  · intro request_header
    unfold has_content_type
    rw [List.any_eq_false]
    intro kv _
    simp [toLowerStr_ne_content_type kv.1]
  · decide

/-- The file system of claim C4's example: two JPEG files. -/
def demoFs : String → Option (List Nat) := fun p =>
  if p = "/tmp/a.jpg" then some [1] else if p = "/tmp/b.jpg" then some [2] else none

/-- Claim C4 (counterexample): the form-data value `"@/tmp/a.jpg @/tmp/b.jpg"`
does compile into exactly two file parts, but each part's *name* is the pair's
key and its *file name* is the path's stem — `a` and `b` via
`Path::file_stem`, not `a.jpg` and `b.jpg` as the claim states. -/
theorem formdata_parts_use_stem :
    handle_multipart demoFs [("files", "@/tmp/a.jpg @/tmp/b.jpg")]
      = .ok [.file "files" "a" [1], .file "files" "b" [2]]
    ∧ get_filename "/tmp/a.jpg" = .ok "a"
    ∧ ("a" : String) ≠ "a.jpg" := by decide

theorem mapM_ok_of_forall {α β : Type} (g : α → Except String β) (f : α → β) :
    ∀ l : List α, (∀ a ∈ l, g a = .ok (f a)) → l.mapM g = .ok (l.map f) := by
  intro l
  induction l with
  | nil => intro _; rfl
  | cons a t ih =>
    intro h
    rw [List.mapM_cons, h a (by simp), ih (fun x hx => h x (by simp [hx]))]
    rfl

/-- Claim C4 (amended): a form-data value containing `@` is split on `@`,
empty segments are dropped, each remaining segment is trimmed and read as a
file path; every referenced file is attached as one part whose *name* is the
form pair's key and whose *file name* is the file path's stem (base name
without extension) — so `"@/tmp/a.jpg @/tmp/b.jpg"` yields exactly two file
parts, with file names `a` and `b`. -/
theorem formdata_file_parts (fs : String → Option (List Nat)) (k v : String)
    (bytes : String → List Nat) (names : String → String)
    (hne : v.isEmpty = false) (hat : v.toList.contains '@' = true)
    (hread : ∀ p ∈ filePaths v, read_binary fs p = .ok (bytes p))
    (hname : ∀ p ∈ filePaths v, get_filename p = .ok (names p)) :
    handle_multipart fs [(k, v)]
      = .ok ((filePaths v).map (fun p => Part.file k (names p) (bytes p))) := by
  have hparts : (filePaths v).mapM (readFilePart fs k)
      = .ok ((filePaths v).map (fun p => Part.file k (names p) (bytes p))) := by
    apply mapM_ok_of_forall
    intro p hp
    unfold readFilePart
    simp only [hread p hp, hname p hp]
    rfl
  unfold handle_multipart
  simp only [hne, hat, Bool.not_false, Bool.true_and, Bool.and_true, if_true]
  rw [hparts]
  show HAppend.hAppend ((filePaths v).map (fun p => Part.file k (names p) (bytes p)))
      <$> handle_multipart fs [] = _
  rw [show handle_multipart fs [] = .ok [] from rfl]
  show Except.ok (((filePaths v).map (fun p => Part.file k (names p) (bytes p))) ++ []) = _
  rw [List.append_nil]

theorem formdata_file_parts_witness :
    (("@/tmp/a.jpg @/tmp/b.jpg" : String).isEmpty = false)
    ∧ (("@/tmp/a.jpg @/tmp/b.jpg" : String).toList.contains '@' = true)
    ∧ (∀ p ∈ filePaths "@/tmp/a.jpg @/tmp/b.jpg",
        read_binary demoFs p = .ok (if p = "/tmp/a.jpg" then [1] else [2]))
    ∧ (∀ p ∈ filePaths "@/tmp/a.jpg @/tmp/b.jpg",
        get_filename p = .ok (if p = "/tmp/a.jpg" then "a" else "b"))
    ∧ handle_multipart demoFs [("files", "@/tmp/a.jpg @/tmp/b.jpg")]
      = .ok ((filePaths "@/tmp/a.jpg @/tmp/b.jpg").map
          (fun p => Part.file "files" (if p = "/tmp/a.jpg" then "a" else "b")
            (if p = "/tmp/a.jpg" then [1] else [2]))) :=
  ⟨by decide, by decide, by decide, by decide,
    formdata_file_parts demoFs "files" "@/tmp/a.jpg @/tmp/b.jpg"
      (fun p => if p = "/tmp/a.jpg" then [1] else [2])
      (fun p => if p = "/tmp/a.jpg" then "a" else "b")
      (by decide) (by decide) (by decide) (by decide)⟩

theorem takeInner_append (cs : List Char) (h : ∀ c ∈ cs, c ≠ '{' ∧ c ≠ '}')
    (rest : List Char) :
    takeInner (cs ++ '}' :: '}' :: rest) = some (cs, rest) := by
  induction cs with
  | nil => rfl
  | cons c cs ih =>
    have hc := h c (by simp)
    have hrest : ∀ x ∈ cs, x ≠ '{' ∧ x ≠ '}' := fun x hx => h x (by simp [hx])
    simp only [List.cons_append, takeInner]
    rw [if_neg hc.2, if_neg hc.1]
    show (takeInner (cs ++ '}' :: '}' :: rest)).map (fun p => (c :: p.1, p.2))
      = some (c :: cs, rest)
    rw [ih hrest]
    rfl

theorem string_mk_data (s : String) : String.mk s.data = s := rfl

/-- Claim C3 (counterexample): the resolver substitutes a `{{k}}` token even
when the only variable with key `k` is disabled — `resolve("{{k}}", vars)`
returns the variable's value, not the verbatim token the claim requires. -/
theorem disabled_variable_still_substitutes :
    parse_var_str "{{k}}" [⟨"k", "v", true⟩] = "v"
    ∧ ("v" : String) ≠ "{{k}}" := by decide

/-- Claim C3 (amended): for a brace-free, already-trimmed name `k`, the
resolver replaces `{{k}}` with the value of the *first* variable whose key
equals `k` — without consulting the `disable` flag — and leaves the token
verbatim only when no variable's key matches. -/
theorem resolver_first_key_match_ignores_disable (vars : List PairUi) (k : String)
    (hbrace : ∀ c ∈ k.toList, c ≠ '{' ∧ c ≠ '}')
    (htrim : trimChars k.toList = k.toList) :
    parse_var_str ("\x7b\x7b" ++ k ++ "\x7d\x7d") vars =
      match vars.find? (fun e => e.key.toList == k.toList) with
      | some v => v.value
      | none => "\x7b\x7b" ++ k ++ "\x7d\x7d" := by
  have htl : ("\x7b\x7b" ++ k ++ "\x7d\x7d").toList = '{' :: '{' :: (k.toList ++ ['}', '}']) := by
    show ("\x7b\x7b" ++ k ++ "\x7d\x7d").data = _
    simp [String.data_append]
  have hlen : ('{' :: '{' :: (k.toList ++ ['}', '}'])).length = k.toList.length + 4 := by
    simp [List.length_append]
  unfold parse_var_str
  rw [htl, hlen]
  have hnil : rvAux vars (k.toList.length + 3) [] = [] := by
    show rvAux vars (k.toList.length + 2 + 1) [] = []
    simp [rvAux]
  have hrv : rvAux vars (k.toList.length + 4) ('{' :: '{' :: (k.toList ++ ['}', '}']))
      = substToken vars k.toList := by
    show rvAux vars (k.toList.length + 3 + 1) ('{' :: '{' :: (k.toList ++ ['}', '}']))
      = substToken vars k.toList
    simp only [rvAux, eq_self_iff_true, ite_true,
      takeInner_append k.toList hbrace []]
    rw [List.append_nil]
  rw [hrv]
  unfold substToken
  simp only [htrim]
  cases hfind : vars.find? (fun e => e.key.toList == k.toList) with
  | some v => exact string_mk_data v.value
  | none =>
    show String.mk ('{' :: '{' :: (k.toList ++ ['}', '}'])) = _
    rw [← htl]
    exact string_mk_data _

/-- Witness for `resolver_first_key_match_ignores_disable` at `k := "k"` with a
single disabled variable. -/
theorem resolver_first_key_match_ignores_disable_witness :
    (∀ c ∈ ("k" : String).toList, c ≠ '{' ∧ c ≠ '}')
    ∧ trimChars ("k" : String).toList = ("k" : String).toList
    ∧ parse_var_str ("\x7b\x7b" ++ "k" ++ "\x7d\x7d") [⟨"k", "v", true⟩] =
        match [(⟨"k", "v", true⟩ : PairUi)].find?
            (fun e => e.key.toList == ("k" : String).toList) with
        | some v => v.value
        | none => "\x7b\x7b" ++ "k" ++ "\x7d\x7d" :=
  ⟨by decide, by decide,
    resolver_first_key_match_ignores_disable [⟨"k", "v", true⟩] "k"
      (by decide) (by decide)⟩

/-- The claim's reading of `percentile`, following the spec's words: index
`ceil(p/100·n) - 1` *clamped to `[0, n-1]`* (so `-1` becomes `0`), `None` on an
empty reservoir.  Kept solely for comparison with the implementation's
`percentile`. -/
def percentileSpec (st : RequestStats) (p : ℚ) : Option Nat :=
  if st.response_times = [] then none
  else
    let sorted := st.response_times.insertionSort (· ≤ ·)
    let n := sorted.length
    let index : Int := min (max (ceilPercentIndex p n - 1) 0) ((n : Int) - 1)
    sorted.get? index.toNat

/-- The spec's reservoir example `[10, 20, 30, 40]`. -/
def reservoirStats : RequestStats :=
  { pending := 0, sending := 0, success := 4, failed := 0,
    response_times := [10, 20, 30, 40],
    total_start_time := some 0, total_end_time := some 1,
    total_upload_bytes := 0, total_download_bytes := 0, max_response_times := 4 }

/-- Claim C5 (counterexample): at `p = 0` the claim's clamped index is `0`
(value `10`), but the implementation computes `ceil(0) as usize - 1`, an
unchecked `usize` subtraction that wraps to `usize::MAX` (release) or panics
(debug); after the `min` clamp the released code returns the *last* (maximum)
sample `40`, not `10`. -/
theorem percentile_zero_wraps :
    percentile reservoirStats 0 = some 40
    ∧ percentileSpec reservoirStats 0 = some 10
    ∧ (40 : Nat) ≠ 10 := by decide

theorem ceilPercentIndex_eq (p : ℚ) (n : Nat) :
    ceilPercentIndex p n = Int.ceil (p / 100 * (n : ℚ)) := by
  unfold ceilPercentIndex
  have hden : (0 : Int) < (p.den : Int) := by exact_mod_cast Rat.den_pos p
  have hb0 : (0 : Int) < (p.den : Int) * 100 := by positivity
  have hq : p / 100 * (n : ℚ) = ((p.num * (n : Int) : Int) : ℚ)
      / (((p.den : Int) * 100 : Int) : ℚ) := by
    have hd : ((p.den : ℚ)) ≠ 0 := by
      exact_mod_cast (Rat.den_pos p).ne'
    have hpden : p * (p.den : ℚ) = (p.num : ℚ) := Rat.mul_den_eq_num p
    push_cast
    rw [div_mul_eq_mul_div,
      div_eq_div_iff (by norm_num : (100 : ℚ) ≠ 0) (by positivity)]
    rw [← hpden]
    ring
  set a : Int := p.num * (n : Int) with ha
  set b : Int := (p.den : Int) * 100 with hb
  rw [Int.fdiv_eq_ediv _ hb0.le, hq]
  set z : Int := (a + b - 1) / b with hz
  have h1 : z * b ≤ a + b - 1 := Int.ediv_mul_le _ hb0.ne'
  have h2 : a + b - 1 < (z + 1) * b := Int.lt_ediv_add_one_mul_self _ hb0
  rw [add_mul, one_mul] at h2
  have hupper : a ≤ z * b := by omega
  have hlower : (z - 1) * b < a := by
    rw [sub_mul, one_mul]
    omega
  have hbq : (0 : ℚ) < (b : ℚ) := by exact_mod_cast hb0
  refine ((Int.ceil_eq_iff).mpr ⟨?_, ?_⟩).symm
  · rw [lt_div_iff hbq]
    calc ((z : ℚ) - 1) * (b : ℚ) = (((z - 1) * b : Int) : ℚ) := by push_cast; ring
      _ < ((a : Int) : ℚ) := by exact_mod_cast hlower
  · rw [div_le_iff hbq]
    calc ((a : Int) : ℚ) ≤ (((z * b : Int)) : ℚ) := by exact_mod_cast hupper
      _ = (z : ℚ) * (b : ℚ) := by push_cast; ring

/-- Claim C5 (amended): `percentile` on an empty reservoir returns `None`; for
every `p` with `0 < p ≤ 100` it returns the element of the ascending-sorted
sample at index `⌈p/100·n⌉ - 1`, which already lies in `[0, n-1]` (the upper
clamp is inert); at `p = 0`, however, the `usize` subtraction wraps (debug
builds panic) and the upper clamp turns the index into `n - 1`, so the
*maximum* sample is returned — not the element at the claim's clamped index 0;
`percentile(50)` of `[10,20,30,40]` is `20`. -/
theorem percentile_nearest_rank (st : RequestStats) (p : ℚ) :
    (st.response_times = [] → percentile st p = none)
    ∧ (st.response_times ≠ [] → 0 < p → p ≤ 100 →
        percentile st p
          = (st.response_times.insertionSort (· ≤ ·)).get?
              ((Int.ceil (p / 100 * (st.response_times.length : ℚ))).toNat - 1)
        ∧ (Int.ceil (p / 100 * (st.response_times.length : ℚ))).toNat - 1
            ≤ st.response_times.length - 1)
    ∧ (st.response_times ≠ [] → st.response_times.length ≤ USIZE_MAX →
        percentile st 0
          = (st.response_times.insertionSort (· ≤ ·)).get?
              (st.response_times.length - 1)) := by
  have hlen : (st.response_times.insertionSort (· ≤ ·)).length
      = st.response_times.length := List.length_insertionSort _ _
  refine ⟨fun h => by simp [percentile, h], fun h hp0 hp100 => ?_, fun h hn => ?_⟩
  · have hnpos : 0 < st.response_times.length := List.length_pos.mpr h
    have hq0 : 0 < p / 100 * (st.response_times.length : ℚ) := by
      have : (0 : ℚ) < (st.response_times.length : ℚ) := by exact_mod_cast hnpos
      positivity
    have hc1 : 1 ≤ Int.ceil (p / 100 * (st.response_times.length : ℚ)) :=
      Int.ceil_pos.mpr hq0
    have hqn : p / 100 * (st.response_times.length : ℚ)
        ≤ (st.response_times.length : ℚ) := by
      have h1 : p / 100 ≤ 1 := by
        rw [div_le_one (by norm_num : (0:ℚ) < 100)]
        exact hp100
      have h2 : (0 : ℚ) ≤ (st.response_times.length : ℚ) := by positivity
      calc p / 100 * (st.response_times.length : ℚ)
          ≤ 1 * (st.response_times.length : ℚ) := mul_le_mul_of_nonneg_right h1 h2
        _ = (st.response_times.length : ℚ) := one_mul _
    have hcn : Int.ceil (p / 100 * (st.response_times.length : ℚ))
        ≤ (st.response_times.length : Int) := Int.ceil_le.mpr (by exact_mod_cast hqn)
    have hu1 : 1 ≤ (Int.ceil (p / 100 * (st.response_times.length : ℚ))).toNat := by
      omega
    have hun : (Int.ceil (p / 100 * (st.response_times.length : ℚ))).toNat
        ≤ st.response_times.length := by omega
    constructor
    · simp only [percentile]
      rw [if_neg h, hlen, ceilPercentIndex_eq]
      rw [if_neg (by omega :
        ¬ (Int.ceil (p / 100 * (st.response_times.length : ℚ))).toNat = 0)]
      congr 1
      omega
    · omega
  · simp only [percentile]
    rw [if_neg h, hlen, ceilPercentIndex_eq]
    have hceil : Int.ceil ((0 : ℚ) / 100 * (st.response_times.length : ℚ)) = 0 := by
      simp
    rw [hceil]
    congr 1
    simp only [Int.toNat_zero, eq_self_iff_true, ite_true]
    unfold USIZE_MAX at hn ⊢
    omega

/-- Witness for `percentile_nearest_rank`: `percentile(50)` of the reservoir
`[10,20,30,40]` follows the nearest-rank formula and equals `20`. -/
theorem percentile_nearest_rank_witness :
    reservoirStats.response_times ≠ []
    ∧ (0 : ℚ) < 50 ∧ (50 : ℚ) ≤ 100
    ∧ (percentile reservoirStats 50
        = (reservoirStats.response_times.insertionSort (· ≤ ·)).get?
            ((Int.ceil ((50 : ℚ) / 100 * (reservoirStats.response_times.length : ℚ))).toNat - 1))
    ∧ percentile reservoirStats 50 = some 20 :=
  ⟨by decide, by norm_num, by norm_num,
    ((percentile_nearest_rank reservoirStats 50).2.1 (by decide)
      (by norm_num) (by norm_num)).1,
    by decide⟩

/-- A concrete mid-run stats value (two requests still in flight). -/
def statsW : RequestStats :=
  { pending := 0, sending := 2, success := 7, failed := 3, response_times := [5],
    total_start_time := some 0, total_end_time := none,
    total_upload_bytes := 10, total_download_bytes := 20, max_response_times := 4 }

/-- Witness for `outcome_counters`: a completed exchange with status 404 counts
as failed, and a transport error counts as failed with no latency or byte
updates. -/
theorem outcome_counters_witness :
    0 < statsW.sending
    ∧ ((handle_http_response 0 9 [] statsW (.ok 12 34 56 404 none)).map
        (fun pr => (pr.2.success, pr.2.failed))
      = some (statsW.success + (if 200 ≤ 404 ∧ 404 < 300 then 1 else 0),
              statsW.failed + (if 200 ≤ 404 ∧ 404 < 300 then 0 else 1)))
    ∧ ((handle_http_response 0 9 [] statsW .err).map
        (fun pr => (pr.1, pr.2.success, pr.2.failed, pr.2.response_times,
                    pr.2.total_upload_bytes, pr.2.total_download_bytes))
      = some ([], statsW.success, statsW.failed + 1, statsW.response_times,
              statsW.total_upload_bytes, statsW.total_download_bytes)) :=
  ⟨by decide,
    (outcome_counters 0 9 [] statsW 12 34 56 404 none (by decide)).1,
    (outcome_counters 0 9 [] statsW 12 34 56 404 none (by decide)).2⟩

/-- Claim C10: the Cancel handler sets the `sending` counter to `0`; every
outcome arriving afterwards runs the unguarded `sending -= 1`, whose `usize`
subtraction underflows (`none` in this model; a panic in debug builds) —
regardless of the outcome and of the state the run was in at cancel time. -/
theorem cancel_then_outcome_underflows (rand now now' : Nat) (vars : List PairUi)
    (st : RequestStats) (o : HttpOutcome) :
    (cancel_run now st).sending = 0
    ∧ handle_http_response rand now' vars (cancel_run now st) o = none := by
  refine ⟨rfl, ?_⟩
  cases o with
  | ok d rq rs status mv =>
    unfold handle_http_response
    simp [add_response_time_sending, cancel_run]
  | err =>
    unfold handle_http_response
    simp [cancel_run]

theorem batchLoop_run (send_count max_concurrent : Nat) (hmc : 0 < max_concurrent) :
    ∀ fuel s, s.sent ≤ send_count → s.inflight ≤ max_concurrent →
      s.inflight = s.sent - s.delivered → s.delivered ≤ s.sent →
      s.peak ≤ max_concurrent →
      2 * (send_count - s.sent) + s.inflight < fuel →
      (batchLoop send_count max_concurrent fuel s).sent = send_count
      ∧ (batchLoop send_count max_concurrent fuel s).inflight = 0
      ∧ (batchLoop send_count max_concurrent fuel s).delivered = send_count
      ∧ (batchLoop send_count max_concurrent fuel s).peak ≤ max_concurrent := by
  intro fuel
  induction fuel with
  | zero => intro s _ _ _ _ _ hm; omega
  | succ fuel ih =>
    intro s h1 h2 h3 h4 h5 hm
    by_cases hcond : s.sent < send_count ∨ 0 < s.inflight
    · rw [batchLoop, if_pos hcond]
      have hpos : 0 < (fillLoop send_count max_concurrent s).inflight := by
        simp only [fillLoop]
        omega
      rw [if_pos hpos]
      apply ih
      · simp only [completeOne, fillLoop]; omega
      · simp only [completeOne, fillLoop]; omega
      · simp only [completeOne, fillLoop]
        simp only [fillLoop] at hpos
        omega
      · simp only [completeOne, fillLoop]
        simp only [fillLoop] at hpos
        omega
      · simp only [completeOne, fillLoop]; omega
      · simp only [completeOne, fillLoop]
        simp only [fillLoop] at hpos
        omega
    · rw [batchLoop, if_neg hcond]
      push_neg at hcond
      exact ⟨by omega, by omega, by omega, h5⟩

/-- Claim C6: for every request count and every positive concurrency ceiling
(the source hardcodes 10 000): the inner spawn loop always refills the
in-flight set up to `min (inflight + unscheduled) ceiling` — i.e. a new future
is started as soon as one completes while unscheduled requests remain; the
in-flight count never exceeds the ceiling at any point (tracked by `peak`); and
the loop terminates with all `count` futures scheduled, none in flight, and
exactly `count` outcomes delivered to the channel (each future sends exactly
one `Result`, success or error). -/
theorem dispatch_bounded_and_complete (send_count max_concurrent : Nat)
    (hmc : 0 < max_concurrent) :
    (∀ s : LoopState, s.inflight ≤ max_concurrent →
      (fillLoop send_count max_concurrent s).inflight
        = min (s.inflight + (send_count - s.sent)) max_concurrent)
    ∧ (∀ fuel, 2 * send_count < fuel →
        (batchLoop send_count max_concurrent fuel initLoop).sent = send_count
        ∧ (batchLoop send_count max_concurrent fuel initLoop).inflight = 0
        ∧ (batchLoop send_count max_concurrent fuel initLoop).delivered = send_count
        ∧ (batchLoop send_count max_concurrent fuel initLoop).peak ≤ max_concurrent) := by
  constructor
  · intro s hs
    simp only [fillLoop]
    omega
  · intro fuel hf
    exact batchLoop_run send_count max_concurrent hmc fuel initLoop
      (by simp [initLoop]) (by simp [initLoop]) (by simp [initLoop])
      (by simp [initLoop]) (by simp [initLoop]) (by simp only [initLoop]; omega)

/-- Witness for `dispatch_bounded_and_complete`: the spec's example,
`count = 50` with ceiling `5`. -/
theorem dispatch_bounded_and_complete_witness :
    0 < 5 ∧ 2 * 50 < 101
    ∧ ((batchLoop 50 5 101 initLoop).sent = 50
        ∧ (batchLoop 50 5 101 initLoop).inflight = 0
        ∧ (batchLoop 50 5 101 initLoop).delivered = 50
        ∧ (batchLoop 50 5 101 initLoop).peak ≤ 5) :=
  ⟨by decide, by decide,
    (dispatch_bounded_and_complete 50 5 (by decide)).2 101 (by decide)⟩

/-- The interleaving of claim C2's counterexample: one fill, the Cancel click,
then the loop drains and refills until all three requests are done. -/
def cancelTrace : List BatchEv :=
  [.fill, .cancel, .complete, .fill, .complete, .fill, .complete]

/-- Claim C2 (counterexample): with `send_count = 3` and `max_concurrent = 1`,
`cancelTrace` is a valid execution — after the Cancel click (snapshot: 1
request started, 1 in flight) the dispatch loop still starts the remaining two
requests, and 3 outcomes are delivered, exceeding the claimed bound
`started-before-cancel + in-flight-at-cancel = 1 + 1`. -/
theorem scheduling_continues_after_cancel :
    sysRun 3 1 cancelTrace (sysInit 3)
      = some { sent := 3, inflight := 0, delivered := 3, sending := 0,
               cancelSnap := some (1, 1) }
    ∧ 1 + 1 < 3 := by decide

/-- Claim C2 (amended): the Cancel button only zeroes the `sending` counter
(recording an end time); the dispatch loop has no cancellation flag — its
`fill` and `complete` transitions neither read nor change `sending`, so
cancellation does not stop the scheduling of new requests (every one of the
`count` requests is eventually started and its result delivered, as the
counterexample trace shows); in-flight requests do complete naturally. -/
theorem cancel_only_clears_sending (send_count max_concurrent : Nat) (s : SysState) :
    (∀ s', sysStep send_count max_concurrent s .cancel = some s' →
        s'.sent = s.sent ∧ s'.inflight = s.inflight ∧ s'.delivered = s.delivered
        ∧ s'.sending = 0)
    ∧ (sysStep send_count max_concurrent { s with sending := 0 } .fill
        = (sysStep send_count max_concurrent s .fill).map
            (fun t => { t with sending := 0 }))
    ∧ (sysStep send_count max_concurrent { s with sending := 0 } .complete
        = (sysStep send_count max_concurrent s .complete).map
            (fun t => { t with sending := 0 })) := by
  refine ⟨?_, ?_, ?_⟩
  · intro s' h
    have h' : (if 0 < s.sending then
        some { s with sending := 0, cancelSnap := some (s.sent, s.inflight) }
      else none) = some s' := h
    split at h'
    · injection h' with h''
      subst h''
      exact ⟨rfl, rfl, rfl, rfl⟩
    · exact absurd h' (by simp)
  · by_cases hc : s.sent < send_count ∧ s.inflight < max_concurrent
    · show (if s.sent < send_count ∧ s.inflight < max_concurrent then _ else none) = _
      rw [if_pos hc]
      show _ = (if s.sent < send_count ∧ s.inflight < max_concurrent then
          some { s with sent := s.sent + 1, inflight := s.inflight + 1 }
        else none).map (fun t => { t with sending := 0 })
      rw [if_pos hc]
      rfl
    · show (if s.sent < send_count ∧ s.inflight < max_concurrent then _ else none) = _
      rw [if_neg hc]
      show _ = (if s.sent < send_count ∧ s.inflight < max_concurrent then
          some { s with sent := s.sent + 1, inflight := s.inflight + 1 }
        else none).map (fun t => { t with sending := 0 })
      rw [if_neg hc]
      rfl
  · by_cases hc : 0 < s.inflight ∧ (s.inflight = max_concurrent ∨ s.sent = send_count)
    · show (if 0 < s.inflight ∧ (s.inflight = max_concurrent ∨ s.sent = send_count)
          then _ else none) = _
      rw [if_pos hc]
      show _ = (if 0 < s.inflight ∧ (s.inflight = max_concurrent ∨ s.sent = send_count)
          then some { s with inflight := s.inflight - 1, delivered := s.delivered + 1 }
        else none).map (fun t => { t with sending := 0 })
      rw [if_pos hc]
      rfl
    · show (if 0 < s.inflight ∧ (s.inflight = max_concurrent ∨ s.sent = send_count)
          then _ else none) = _
      rw [if_neg hc]
      show _ = (if 0 < s.inflight ∧ (s.inflight = max_concurrent ∨ s.sent = send_count)
          then some { s with inflight := s.inflight - 1, delivered := s.delivered + 1 }
        else none).map (fun t => { t with sending := 0 })
      rw [if_neg hc]
      rfl

/-- Witness for `cancel_only_clears_sending`: the Cancel click on the freshly
started run of 3 requests. -/
theorem cancel_only_clears_sending_witness :
    sysStep 3 1 (sysInit 3) .cancel
      = some { sent := 0, inflight := 0, delivered := 0, sending := 0,
               cancelSnap := some (0, 0) }
    ∧ ((({ sent := 0, inflight := 0, delivered := 0, sending := 0,
           cancelSnap := some (0, 0) } : SysState).sent = (sysInit 3).sent)
        ∧ (({ sent := 0, inflight := 0, delivered := 0, sending := 0,
              cancelSnap := some (0, 0) } : SysState).inflight = (sysInit 3).inflight)
        ∧ (({ sent := 0, inflight := 0, delivered := 0, sending := 0,
              cancelSnap := some (0, 0) } : SysState).delivered = (sysInit 3).delivered)
        ∧ (({ sent := 0, inflight := 0, delivered := 0, sending := 0,
              cancelSnap := some (0, 0) } : SysState).sending = 0)) :=
  ⟨by decide,
    (cancel_only_clears_sending 3 1 (sysInit 3)).1
      { sent := 0, inflight := 0, delivered := 0, sending := 0,
        cancelSnap := some (0, 0) } (by decide)⟩

/-- Claim C7: a failed pre-request script (engine error or unsuccessful
result) leaves the request config and the variable table untouched, so the
HTTP request is built from the original unmodified configuration; a failed
post-response script leaves the variable table unchanged; and in neither case
does the script error fail the HTTP call — with a working transport the send
still returns the response, carrying the unchanged variables. -/
theorem script_errors_nonfatal :
    (∀ cfg vars (out : Except String (ScriptResult PreRequestContext)),
        scriptFailed out →
        (apply_pre_script cfg vars out).1 = cfg
        ∧ (apply_pre_script cfg vars out).2.1 = vars)
    ∧ (∀ vars (out : Except String (ScriptResult (List (String × String)))),
        scriptFailed out → (apply_post_script vars out).1 = vars)
    ∧ (∀ fs cfg vars preOut transport postOut, scriptFailed preOut →
        http_send fs cfg vars preOut transport postOut
          = http_send_after_pre fs cfg cfg vars transport postOut)
    ∧ (∀ fs cfg vars preOut transport postOut req resp,
        scriptFailed preOut → scriptFailed postOut →
        request_build fs cfg vars = .ok req → transport req = .ok resp →
        http_send fs cfg vars preOut transport postOut
          = .ok { status := resp.status,
                  modified_vars :=
                    if cfg.script_enabled
                        && (!(trimStr cfg.pre_request_script).isEmpty
                            || !(trimStr cfg.post_response_script).isEmpty)
                    then some vars else none }) := by
  have hpre : ∀ cfg vars (out : Except String (ScriptResult PreRequestContext)),
      scriptFailed out →
      (apply_pre_script cfg vars out).1 = cfg
      ∧ (apply_pre_script cfg vars out).2.1 = vars := by
    intro cfg vars out hout
    unfold apply_pre_script
    cases out with
    | error e => split <;> exact ⟨rfl, rfl⟩
    | ok r =>
      have hr : r.success = false := hout
      split
      · simp [hr]
      · exact ⟨rfl, rfl⟩
  have hpost : ∀ vars (out : Except String (ScriptResult (List (String × String)))),
      scriptFailed out → (apply_post_script vars out).1 = vars := by
    intro vars out hout
    unfold apply_post_script
    cases out with
    | error e => rfl
    | ok r =>
      have hr : r.success = false := hout
      simp [hr]
  have hsend : ∀ fs cfg vars preOut transport postOut, scriptFailed preOut →
      http_send fs cfg vars preOut transport postOut
        = http_send_after_pre fs cfg cfg vars transport postOut := by
    intro fs cfg vars preOut transport postOut hfail
    unfold http_send
    show http_send_after_pre fs cfg (apply_pre_script cfg vars preOut).1
        (apply_pre_script cfg vars preOut).2.1 transport postOut
      = http_send_after_pre fs cfg cfg vars transport postOut
    rw [(hpre cfg vars preOut hfail).1, (hpre cfg vars preOut hfail).2]
  refine ⟨hpre, hpost, hsend, ?_⟩
  intro fs cfg vars preOut transport postOut req resp hf1 hf2 hbuild htrans
  rw [hsend fs cfg vars preOut transport postOut hf1]
  unfold http_send_after_pre
  rw [hbuild]
  show (transport req) >>= _ = _
  rw [htrans]
  cases hen : (cfg.script_enabled && !(trimStr cfg.post_response_script).isEmpty) with
  | true => simp [hen, hpost vars postOut hf2]
  | false => simp [hen]

/-- A config with both scripts enabled (and a raw empty body, so compilation
always succeeds). -/
def scriptedCfg : HttpRequestConfig :=
  { method := .GET, url := "http://h", body_tab_ui := .Raw, query := [],
    header := [], body_form := [], body_form_data := [], body_raw := "",
    body_raw_type := .Json, script_enabled := true,
    pre_request_script := "boom", post_response_script := "boom" }

/-- The request `scriptedCfg` compiles to. -/
def scriptedReq : BuiltRequest :=
  { method := .GET, url := "http://h", query := [], headers := [], body := .empty }

/-- Witness for `script_errors_nonfatal`: both scripts enabled and both
failing with engine errors; the request still goes out unmodified, the call
succeeds, and the returned `modified_vars` are the original variables. -/
theorem script_errors_nonfatal_witness :
    scriptFailed (Except.error "E1" : Except String (ScriptResult PreRequestContext))
    ∧ scriptFailed
        (Except.error "E2" : Except String (ScriptResult (List (String × String))))
    ∧ request_build (fun _ => none) scriptedCfg [⟨"k", "v", false⟩] = .ok scriptedReq
    ∧ http_send (fun _ => none) scriptedCfg [⟨"k", "v", false⟩] (.error "E1")
        (fun _ => .ok { status := 200, headers := [], body := [] }) (.error "E2")
      = .ok { status := 200, modified_vars :=
          if scriptedCfg.script_enabled
              && (!(trimStr scriptedCfg.pre_request_script).isEmpty
                  || !(trimStr scriptedCfg.post_response_script).isEmpty)
          then some [⟨"k", "v", false⟩] else none } :=
  ⟨trivial, trivial, by decide,
    (script_errors_nonfatal).2.2.2 (fun _ => none) scriptedCfg [⟨"k", "v", false⟩]
      (.error "E1") (fun _ => .ok { status := 200, headers := [], body := [] })
      (.error "E2") scriptedReq { status := 200, headers := [], body := [] }
      trivial trivial (by decide) rfl⟩

end ApiTest
